import Mathlib

/-!
# Verification of the image-extraction server (`src/server.js`)

This file gives a shallow embedding of the server's logic:

* the in-page extraction script run by `page.evaluate` (four detection
  methods, deduplication by source URL and the minimum-size filter),
* the page-scroll routine `scrollPageToLoadImages`,
* the `POST /extract-images` and `GET /health` request handlers together
  with the process-wide browser flag.

JavaScript strings are modelled as Lean `String`s; the string operations
the script uses (`startsWith`, `includes`, `split`, `trim`, the
background-image regular expression) are defined below over the character
list of the string, mirroring their JavaScript semantics, so that every
definition evaluates by kernel reduction.
-/

namespace ImageServer

/-! ## JavaScript string primitives -/

/-- JavaScript `s.startsWith(pat)` on character lists. -/
def jsStartsWith (s pat : String) : Bool :=
  pat.data.isPrefixOf s.data

/-- Substring search on character lists: does `l` contain `pat` contiguously? -/
def listContainsSub (pat : List Char) : List Char → Bool
  | [] => pat.isEmpty
  | c :: rest => pat.isPrefixOf (c :: rest) || listContainsSub pat rest

/-- JavaScript `s.includes(pat)`. -/
def jsIncludes (s pat : String) : Bool :=
  listContainsSub pat.data s.data

/-- JavaScript string truthiness: a string is truthy iff it is nonempty. -/
def strTruthy (s : String) : Bool :=
  !s.data.isEmpty

/-- JavaScript `s.split(c)` for a single-character separator: every occurrence splits,
empty pieces are kept (`"a,,b".split(",") = ["a","","b"]`). -/
def splitChar (c : Char) : List Char → List (List Char)
  | [] => [[]]
  | x :: rest =>
    match splitChar c rest with
    | [] => if x == c then [[], []] else [[x]]
    | g :: gs => if x == c then [] :: g :: gs else (x :: g) :: gs

/-- JavaScript `s.trim()`: strip whitespace from both ends. -/
def trimChars (l : List Char) : List Char :=
  ((l.dropWhile Char.isWhitespace).reverse.dropWhile Char.isWhitespace).reverse

/-! ## The background-image regular expression

`style.backgroundImage.match(/url\(["']?(.*?)["']?\)/)` : find the first
occurrence of `url(`, optionally consume one quote character (the first
`["']?` is greedy), then the lazy group `(.*?)` extends minimally until the
closing `["']?\)` matches.  The whole match fails iff the string has no
`url(`, or no `)` after the first `url(`. -/

/-- Drop everything up to and including the first occurrence of `url(`. -/
def dropToUrlParen : List Char → Option (List Char)
  | 'u' :: 'r' :: 'l' :: '(' :: rest => some rest
  | _ :: rest => dropToUrlParen rest
  | [] => none

/-- The lazy capture group: accumulate characters until the remainder starts
with `)` or with a quote immediately followed by `)`. -/
def lazyCapture (acc : List Char) : List Char → Option String
  | [] => none
  | c :: rest =>
    if c == ')' then some (String.mk acc.reverse)
    else if (c == '"' || c == Char.ofNat 39) && rest.headD ')' == ')' && !rest.isEmpty then
      some (String.mk acc.reverse)
    else lazyCapture (c :: acc) rest

/-- The capture group of `bg.match(/url\(["']?(.*?)["']?\)/)`, or `none` when
the regular expression does not match. -/
def bgUrlMatch (bg : String) : Option String :=
  match dropToUrlParen bg.data with
  | none => none
  | some rest =>
    let rest2 :=
      match rest with
      | c :: tail => if c == '"' || c == Char.ofNat 39 then tail else rest
      | [] => rest
    lazyCapture [] rest2

/-! ## Image candidates and the dedup/size filter -/

/-- One image candidate pushed by the extraction script: `{src, alt, type,
width, height}`, plus the `element` tag name that only the background-image
method records. -/
structure Image where
  src : String
  alt : String
  type : String
  width : Nat
  height : Nat
  element : Option String := none
deriving Repr, DecidableEq

/-- The size test `(img.width > 0 && img.height > 0) && (img.width < 50 || img.height < 50)`. -/
def isTooSmall (img : Image) : Bool :=
  (decide (0 < img.width) && decide (0 < img.height))
    && (decide (img.width < 50) || decide (img.height < 50))

/-- The combined filter at the end of the extraction script:
`images.filter((img, index, self) => { const isDuplicate = index !==
self.findIndex(i => i.src === img.src); const isTooSmall = ...; return
!isDuplicate && !isTooSmall; })`. -/
def uniqueImages (images : List Image) : List Image :=
  (images.enum.filter fun p =>
    let isDup := p.1 != images.findIdx fun i => i.src == p.2.src
    !isDup && !isTooSmall p.2).map Prod.snd

/-! ## The four detection methods -/

/-- An `<img>` element as the script reads it. -/
structure ImgTag where
  src : String
  alt : String
  naturalWidth : Nat
  width : Nat
  naturalHeight : Nat
  height : Nat
deriving Repr, DecidableEq

/-- Method 1: standard `img` tags. -/
def method1 (imgElements : List ImgTag) : List Image :=
  imgElements.enum.filterMap fun p =>
    let img := p.2
    if strTruthy img.src && jsStartsWith img.src "http" then
      some { src := img.src
             alt := if strTruthy img.alt then img.alt else "image-" ++ toString p.1
             type := "img-tag"
             width := if img.naturalWidth != 0 then img.naturalWidth else img.width
             height := if img.naturalHeight != 0 then img.naturalHeight else img.height }
    else none

/-- An arbitrary DOM element with its computed `backgroundImage` style. -/
structure DomElement where
  tagName : String
  backgroundImage : String
deriving Repr, DecidableEq

/-- Method 2: CSS background images. -/
def method2 (allElements : List DomElement) : List Image :=
  allElements.enum.filterMap fun p =>
    let bgImage := p.2.backgroundImage
    if strTruthy bgImage && bgImage != "none" && jsIncludes bgImage "url(" then
      match bgUrlMatch bgImage with
      | some u =>
        if strTruthy u && jsStartsWith u "http" then
          some { src := u
                 alt := "background-" ++ toString p.1
                 type := "background-image"
                 element := some p.2.tagName
                 width := 0
                 height := 0 }
        else none
      | none => none
    else none

/-- An element matched by `picture source, picture img, [srcset]`. -/
structure SrcsetElement where
  srcset : String
  src : String
deriving Repr, DecidableEq

/-- The URL list `srcset.split(char-comma).map(s => s.trim().split(char-space)[0])`. -/
def srcsetUrls (srcset : String) : List String :=
  (splitChar ',' srcset.data).map fun g =>
    String.mk ((splitChar ' ' (trimChars g)).headD [])

/-- Method 3: `picture` elements and `srcset` attributes. -/
def method3 (pictureElements : List SrcsetElement) : List Image :=
  pictureElements.enum.filterMap fun p =>
    let srcset := if strTruthy p.2.srcset then p.2.srcset else p.2.src
    if strTruthy srcset && jsIncludes srcset "http" then
      let httpUrls := (srcsetUrls srcset).filter fun url => jsStartsWith url "http"
      if 0 < httpUrls.length then
        some { src := httpUrls.getLastD ""
               alt := "picture-" ++ toString p.1
               type := "picture-element"
               width := 0
               height := 0 }
      else none
    else none

/-- An element matched by `[data-src], [data-lazy-src], [data-original],
[data-image], [data-bg]`; absent attributes are `none`. -/
structure LazyElement where
  dataSrc : Option String := none
  dataLazySrc : Option String := none
  dataOriginal : Option String := none
  dataImage : Option String := none
  dataBg : Option String := none
deriving Repr, DecidableEq

/-- JavaScript `a || b` on possibly-undefined strings: keep `a` iff it is
present and nonempty. -/
def jsOrStr (a b : Option String) : Option String :=
  match a with
  | some s => if s.data.isEmpty then b else some s
  | none => b

/-- Method 4: lazy-loading data attributes. -/
def method4 (lazyImages : List LazyElement) : List Image :=
  lazyImages.enum.filterMap fun p =>
    let e := p.2
    match jsOrStr e.dataSrc (jsOrStr e.dataLazySrc (jsOrStr e.dataOriginal
      (jsOrStr e.dataImage e.dataBg))) with
    | some src =>
      if strTruthy src && jsStartsWith src "http" then
        some { src := src
               alt := "lazy-" ++ toString p.1
               type := "lazy-loading"
               width := 0
               height := 0 }
      else none
    | none => none

/-- The DOM snapshot the extraction script reads: the four query results. -/
structure Page where
  imgElements : List ImgTag
  allElements : List DomElement
  pictureElements : List SrcsetElement
  lazyImages : List LazyElement
deriving Repr, DecidableEq

/-- The whole `page.evaluate` extraction script: run the four methods in
order, then apply the dedup/size filter. -/
def pageEvaluate (page : Page) : List Image :=
  uniqueImages (method1 page.imgElements ++ method2 page.allElements
    ++ method3 page.pictureElements ++ method4 page.lazyImages)

/-! ## The page-scroll routine -/

/-- One observable browser interaction of `scrollPageToLoadImages`. -/
inductive ScrollAction where
  | scrollTo (y : Nat)
  | wait (ms : Nat)
deriving Repr, DecidableEq

/-- `const scrollSteps = 5`. -/
def scrollSteps : Nat := 5

/-- The scroll routine: `for (i = 0; i < scrollSteps; i++) { scrollTo(0,
i * viewportHeight); waitForTimeout(1000) }` then `scrollTo(0, 0);
waitForTimeout(1000)`, as the sequence of browser interactions it performs. -/
def scrollPageToLoadImages (viewportHeight : Nat) : List ScrollAction :=
  ((List.range scrollSteps).flatMap fun i =>
    [ScrollAction.scrollTo (i * viewportHeight), ScrollAction.wait 1000])
  ++ [ScrollAction.scrollTo 0, ScrollAction.wait 1000]

/-! ## The HTTP surface

`POST /extract-images` and `GET /health`, with the process-wide
`let browser = null` flag.  The behaviour of the outside world for one
request (does `puppeteer.launch` throw? does `browser.newPage` throw? does
the navigate-scroll-evaluate sequence throw, and if not which DOM does it
see?) is passed in as a `BrowserEnv`. -/

/-- A JavaScript value as it can appear in the parsed JSON body's `url`
field (`undefined` when the field is absent). -/
inductive JsValue where
  | undefined
  | null
  | bool (b : Bool)
  | num (n : Int)
  | str (s : String)
deriving Repr, DecidableEq

/-- JavaScript truthiness of a `JsValue`. -/
def truthy : JsValue → Bool
  | .undefined => false
  | .null => false
  | .bool b => b
  | .num n => n != 0
  | .str s => strTruthy s

/-- The process-wide mutable state: whether `browser` is non-null. -/
structure ServerState where
  browser : Bool
deriving Repr, DecidableEq

/-- `let browser = null` at module load. -/
def initialServerState : ServerState := ⟨false⟩

/-- A JSON response body of the server. -/
inductive RespBody where
  | success (images : List Image) (count : Nat) (url : JsValue)
  | failure (error : String) (message : Option String)
  | health (status : String) (browser : Bool)
deriving Repr, DecidableEq

/-- An HTTP response: status code and JSON body. -/
structure Response where
  status : Nat
  body : RespBody
deriving Repr, DecidableEq

/-- What the browser library does during one extraction request. -/
structure BrowserEnv where
  /-- Result of `puppeteer.launch` (consulted only when `browser` is null). -/
  launchResult : Except String Unit
  /-- Result of `browser.newPage()`. -/
  newPageResult : Except String Unit
  /-- Result of user-agent setup, navigation, waits, scrolling and
  `page.evaluate`: the DOM snapshot on success, the thrown message on
  failure. -/
  pageResult : Except String Page

/-- Browser-library calls a request performs, in order. -/
inductive BrowserCall where
  | launch
  | newPage
  | closePage
deriving Repr, DecidableEq

/-- The part of the `POST /extract-images` handler after `initBrowser`
succeeded: open a page, navigate and evaluate, close the page, respond. -/
def afterBrowser (s : ServerState) (url : JsValue) (env : BrowserEnv)
    (calls : List BrowserCall) : ServerState × List BrowserCall × Response :=
  match env.newPageResult with
  | .error m =>
    (s, calls ++ [.newPage], ⟨500, .failure "Failed to extract images" (some m)⟩)
  | .ok _ =>
    match env.pageResult with
    | .error m =>
      (s, calls ++ [.newPage], ⟨500, .failure "Failed to extract images" (some m)⟩)
    | .ok page =>
      let imageData := pageEvaluate page
      (s, calls ++ [.newPage, .closePage],
        ⟨200, .success imageData imageData.length url⟩)

/-- The `POST /extract-images` handler: `const { url } = req.body; if (!url)
return res.status(400).json({ error: 'URL is required' });` then
`initBrowser` (launching only when `browser` is null), page work, and the
`catch` that answers 500 with the thrown message. -/
def postExtractImages (s : ServerState) (url : JsValue) (env : BrowserEnv) :
    ServerState × List BrowserCall × Response :=
  if truthy url = false then
    (s, [], ⟨400, .failure "URL is required" none⟩)
  else
    if s.browser then
      afterBrowser s url env []
    else
      match env.launchResult with
      | .error m =>
        (s, [.launch], ⟨500, .failure "Failed to extract images" (some m)⟩)
      | .ok _ => afterBrowser ⟨true⟩ url env [.launch]

/-- The `GET /health` handler:
`res.json({ status: 'OK', browser: browser !== null })`. -/
def getHealth (s : ServerState) : Response :=
  ⟨200, .health "OK" s.browser⟩

/-- One `POST /extract-images` request as the server sees it. -/
structure ExtractRequest where
  url : JsValue
  env : BrowserEnv

/-- State transition of one extraction request. -/
def stepServer (s : ServerState) (r : ExtractRequest) : ServerState :=
  (postExtractImages s r.url r.env).1

/-- State after a sequence of extraction requests. -/
def runServer (s : ServerState) : List ExtractRequest → ServerState
  | [] => s
  | r :: rs => runServer (stepServer s r) rs

/-! ## Lemmas about the dedup/size filter -/

/-- Characterization of `uniqueImages`: an image is returned iff it is the
first candidate carrying its source URL and it is not too small. -/
theorem mem_uniqueImages_iff {l : List Image} {img : Image} :
    img ∈ uniqueImages l ↔
      l[l.findIdx fun i => i.src == img.src]? = some img ∧ isTooSmall img = false := by
  unfold uniqueImages
  simp only [List.mem_map, List.mem_filter, List.mem_enum_iff_getElem?]
  constructor
  · rintro ⟨⟨k, a⟩, ⟨hget, hpred⟩, rfl⟩
    simp only [bne, Bool.not_not, Bool.and_eq_true, beq_iff_eq, Bool.not_eq_true'] at hpred
    obtain ⟨rfl, hsmall⟩ := hpred
    exact ⟨hget, hsmall⟩
  · rintro ⟨hget, hsmall⟩
    refine ⟨(l.findIdx fun i => i.src == img.src, img), ⟨hget, ?_⟩, rfl⟩
    simp [bne, hsmall]

/-- A returned image is one of the candidates. -/
theorem mem_of_mem_uniqueImages {l : List Image} {img : Image}
    (h : img ∈ uniqueImages l) : img ∈ l :=
  List.getElem?_mem (mem_uniqueImages_iff.mp h).1

/-- The element found at a `findIdx` position satisfies the predicate. -/
theorem beq_of_getElem?_findIdx {α : Type} {p : α → Bool} {l : List α} {a : α}
    (h : l[l.findIdx p]? = some a) : p a = true := by
  have hlt : l.findIdx p < l.length := by
    by_contra hge
    rw [List.getElem?_eq_none (Nat.le_of_not_lt hge)] at h
    exact Option.noConfusion h
  rw [List.getElem?_eq_getElem hlt] at h
  obtain rfl : l[l.findIdx p] = a := Option.some.inj h
  exact List.findIdx_getElem

/-- In a duplicate-free list, at most one element equals `c`. -/
theorem countP_beq_le_one {α : Type} [DecidableEq α] {l : List α}
    (h : l.Nodup) (c : α) : l.countP (fun x => x == c) ≤ 1 := by
  rw [← List.count_eq_countP]
  exact List.nodup_iff_count_le_one.mp h c

/-- In the numbered candidate list, at most one entry carries a given index. -/
theorem countP_fst_enum_le_one {α : Type} (l : List α) (c : Nat) :
    l.enum.countP (fun p => p.1 == c) ≤ 1 := by
  have h := List.countP_map (fun k : Nat => k == c) (Prod.fst (β := α)) l.enum
  rw [List.enum_map_fst] at h
  have h2 : (List.range l.length).countP (fun k => k == c) ≤ 1 :=
    countP_beq_le_one (List.nodup_range _) c
  rw [h] at h2
  simpa [Function.comp] using h2

/-- The returned list holds at most one image per source URL. -/
theorem countP_src_uniqueImages_le_one (l : List Image) (s : String) :
    (uniqueImages l).countP (fun i => i.src == s) ≤ 1 := by
  unfold uniqueImages
  rw [List.countP_map, List.countP_filter]
  refine le_trans (List.countP_mono_left ?_)
    (countP_fst_enum_le_one l (l.findIdx fun i => i.src == s))
  rintro ⟨k, a⟩ _ hp
  simp only [Function.comp, bne, Bool.not_not, Bool.and_eq_true, beq_iff_eq,
    Bool.not_eq_true'] at hp ⊢
  obtain ⟨hsrc, hidx, _⟩ := hp
  rw [hidx, hsrc]

/-- Exact count of returned images per source URL: one when the first
candidate with that URL passes the size filter, zero when it does not. -/
theorem countP_src_uniqueImages_eq {l : List Image} {s : String} {img : Image}
    (h : l[l.findIdx fun i => i.src == s]? = some img) :
    (uniqueImages l).countP (fun i => i.src == s) =
      if isTooSmall img then 0 else 1 := by
  have hsrc : img.src = s := by
    have hb := beq_of_getElem?_findIdx h
    simpa [beq_iff_eq] using hb
  cases hsmall : isTooSmall img with
  | true =>
    have h0 : (uniqueImages l).countP (fun i => i.src == s) = 0 := by
      rw [List.countP_eq_zero]
      intro a ha hpa
      have hasrc : a.src = s := by simpa [beq_iff_eq] using hpa
      obtain ⟨hget, hsm⟩ := mem_uniqueImages_iff.mp ha
      rw [hasrc] at hget
      have hai : a = img := Option.some.inj (hget.symm.trans h)
      rw [hai, hsmall] at hsm
      exact Bool.noConfusion hsm
    simp [h0]
  | false =>
    have hle := countP_src_uniqueImages_le_one l s
    have hmem : img ∈ uniqueImages l := by
      refine mem_uniqueImages_iff.mpr ⟨?_, hsmall⟩
      rwa [hsrc]
    have hpos : 0 < (uniqueImages l).countP (fun i => i.src == s) :=
      List.countP_pos_iff.mpr ⟨img, hmem, by simp [hsrc]⟩
    have h1 : (uniqueImages l).countP (fun i => i.src == s) = 1 := by omega
    simp [h1]

/-- When no candidate is too small, the returned source URLs are exactly the
candidate source URLs. -/
theorem exists_src_uniqueImages_iff (l : List Image)
    (hs : ∀ img ∈ l, isTooSmall img = false) (s : String) :
    (∃ img ∈ uniqueImages l, img.src = s) ↔ ∃ img ∈ l, img.src = s := by
  constructor
  · rintro ⟨img, hm, rfl⟩
    exact ⟨img, mem_of_mem_uniqueImages hm, rfl⟩
  · rintro ⟨img, hm, rfl⟩
    have hex : ∃ x ∈ l, (fun i => i.src == img.src) x = true := ⟨img, hm, by simp⟩
    have hlt := List.findIdx_lt_length_of_exists hex
    have hget : l[l.findIdx fun i => i.src == img.src]? =
        some (l[l.findIdx fun i => i.src == img.src]) := List.getElem?_eq_getElem hlt
    have hpk : ((l[l.findIdx fun i => i.src == img.src]).src == img.src) = true :=
      List.findIdx_getElem (w := hlt)
    have hsrc : (l[l.findIdx fun i => i.src == img.src]).src = img.src := by
      simpa [beq_iff_eq] using hpk
    refine ⟨l[l.findIdx fun i => i.src == img.src], ?_, hsrc⟩
    refine mem_uniqueImages_iff.mpr ⟨?_, hs _ (List.getElem_mem hlt)⟩
    rw [hsrc]
    exact hget

/-! ## Every returned source URL starts with "http" -/

/-- The last element (with default) of a nonempty list is an element. -/
theorem getLastD_mem {α : Type} : ∀ (l : List α) (d : α), 0 < l.length →
    l.getLastD d ∈ l
  | [], _, h => absurd h (by simp)
  | [a], d, _ => by simp
  | a :: b :: t, d, _ => by
    rw [List.getLastD_cons]
    exact List.mem_cons_of_mem a (getLastD_mem (b :: t) a (by simp))

/-- Every method-1 candidate's source starts with `http`. -/
theorem method1_src_http {imgs : List ImgTag} {img : Image}
    (h : img ∈ method1 imgs) : jsStartsWith img.src "http" = true := by
  simp only [method1, List.mem_filterMap] at h
  obtain ⟨p, _, hf⟩ := h
  split at hf
  next hc =>
    obtain rfl := Option.some.inj hf
    rw [Bool.and_eq_true] at hc
    exact hc.2
  next => exact Option.noConfusion hf

/-- Every method-2 candidate's source starts with `http`. -/
theorem method2_src_http {els : List DomElement} {img : Image}
    (h : img ∈ method2 els) : jsStartsWith img.src "http" = true := by
  simp only [method2, List.mem_filterMap] at h
  obtain ⟨p, _, hf⟩ := h
  split at hf
  next =>
    split at hf
    next u hm =>
      split at hf
      next hc =>
        obtain rfl := Option.some.inj hf
        rw [Bool.and_eq_true] at hc
        exact hc.2
      next => exact Option.noConfusion hf
    next => exact Option.noConfusion hf
  next => exact Option.noConfusion hf

/-- Every method-3 candidate's source starts with `http`. -/
theorem method3_src_http {els : List SrcsetElement} {img : Image}
    (h : img ∈ method3 els) : jsStartsWith img.src "http" = true := by
  simp only [method3, List.mem_filterMap] at h
  obtain ⟨p, _, hf⟩ := h
  split at hf
  all_goals split at hf
  any_goals exact Option.noConfusion hf
  all_goals split at hf
  any_goals exact Option.noConfusion hf
  all_goals
    obtain rfl := Option.some.inj hf
    rename_i hlen
    exact (List.mem_filter.mp (getLastD_mem _ ("" : String) hlen)).2

/-- Every method-4 candidate's source starts with `http`. -/
theorem method4_src_http {els : List LazyElement} {img : Image}
    (h : img ∈ method4 els) : jsStartsWith img.src "http" = true := by
  simp only [method4, List.mem_filterMap] at h
  obtain ⟨p, _, hf⟩ := h
  split at hf
  next u hm =>
    split at hf
    next hc =>
      obtain rfl := Option.some.inj hf
      rw [Bool.and_eq_true] at hc
      exact hc.2
    next => exact Option.noConfusion hf
  next => exact Option.noConfusion hf

/-! ## Server-state lemmas -/

/-- The page-work phase never changes the stored state it was given. -/
theorem afterBrowser_fst (s : ServerState) (url : JsValue) (env : BrowserEnv)
    (calls : List BrowserCall) : (afterBrowser s url env calls).1 = s := by
  unfold afterBrowser
  cases hn : env.newPageResult with
  | error m => rfl
  | ok u =>
    cases hp : env.pageResult with
    | error m => rfl
    | ok page => rfl

/-- A request that reaches browser initialization leaves the flag set. -/
theorem stepServer_browser_true (s : ServerState) (r : ExtractRequest)
    (hu : truthy r.url = true) (hb : s.browser = true ∨ r.env.launchResult = .ok ()) :
    (stepServer s r).browser = true := by
  unfold stepServer postExtractImages
  rw [hu]
  rcases hb with hb | hl
  · simp [hb, afterBrowser_fst]
  · cases hsb : s.browser with
    | true => simp [hsb, afterBrowser_fst]
    | false => simp [hsb, hl, afterBrowser_fst]

/-- The browser flag never reverts from `true` to `false`. -/
theorem stepServer_browser_mono (s : ServerState) (r : ExtractRequest)
    (hb : s.browser = true) : (stepServer s r).browser = true := by
  unfold stepServer postExtractImages
  cases hu : truthy r.url with
  | false => simp [hb]
  | true => simp [hb, afterBrowser_fst]

/-- Once set, the browser flag stays set over any request sequence. -/
theorem runServer_browser_true (rs : List ExtractRequest) :
    ∀ s : ServerState, s.browser = true → (runServer s rs).browser = true := by
  induction rs with
  | nil => intro s hb; exact hb
  | cons r rs ih =>
    intro s hb
    exact ih _ (stepServer_browser_mono s r hb)

/-- A request that does not reach browser initialization leaves the flag
unset. -/
theorem stepServer_browser_false (s : ServerState) (r : ExtractRequest)
    (hb : s.browser = false)
    (h : truthy r.url = false ∨ r.env.launchResult ≠ .ok ()) :
    (stepServer s r).browser = false := by
  unfold stepServer postExtractImages
  rcases h with hu | hl
  · simp [hu, hb]
  · cases hu : truthy r.url with
    | false => simp [hb]
    | true =>
      cases hlr : r.env.launchResult with
      | error m => simp [hu, hb, hlr]
      | ok u => exact absurd hlr hl

/-! ## The claims -/

/-- C1: For every candidate list, a returned image never has both dimensions
known (positive) with either dimension under 50 px; and — the deciding
case — a lone candidate with one dimension unknown (zero) is returned even
when its other dimension is under 50 px, because the filter applies only
when both width and height are positive. -/
theorem small_known_dims_excluded :
    (∀ (l : List Image) (img : Image), img ∈ uniqueImages l →
      ¬(0 < img.width ∧ 0 < img.height ∧ (img.width < 50 ∨ img.height < 50)))
    ∧ ∀ img : Image, img.width = 0 ∨ img.height = 0 → uniqueImages [img] = [img] := by
  constructor
  · intro l img hm hcon
    have hsm := (mem_uniqueImages_iff.mp hm).2
    obtain ⟨h1, h2, h3⟩ := hcon
    have htrue : isTooSmall img = true := by
      simp only [isTooSmall, Bool.and_eq_true, Bool.or_eq_true, decide_eq_true_eq]
      exact ⟨⟨h1, h2⟩, h3⟩
    rw [hsm] at htrue
    exact Bool.noConfusion htrue
  · intro img h
    have hsm : isTooSmall img = false := by
      rcases h with h | h <;> simp [isTooSmall, h]
    simp [uniqueImages, List.enum, List.enumFrom, List.findIdx_cons, hsm]

/-- Witness for C1 at concrete images: a 100×80 image is never filtered out
by size, and a first candidate with unknown width and height 30 survives. -/
theorem small_known_dims_excluded_witness :
    ¬(0 < (⟨"http://a/big.jpg", "a", "img-tag", 100, 80, none⟩ : Image).width
        ∧ 0 < (⟨"http://a/big.jpg", "a", "img-tag", 100, 80, none⟩ : Image).height
        ∧ ((⟨"http://a/big.jpg", "a", "img-tag", 100, 80, none⟩ : Image).width < 50
            ∨ (⟨"http://a/big.jpg", "a", "img-tag", 100, 80, none⟩ : Image).height < 50))
    ∧ uniqueImages [⟨"http://a/thumb.jpg", "t", "lazy-loading", 0, 30, none⟩]
        = [⟨"http://a/thumb.jpg", "t", "lazy-loading", 0, 30, none⟩] :=
  ⟨small_known_dims_excluded.1 [⟨"http://a/big.jpg", "a", "img-tag", 100, 80, none⟩]
      ⟨"http://a/big.jpg", "a", "img-tag", 100, 80, none⟩ (by decide),
   small_known_dims_excluded.2 ⟨"http://a/thumb.jpg", "t", "lazy-loading", 0, 30, none⟩
      (Or.inl rfl)⟩

/-- C2 counterexample: two detection methods produce candidates with the same
source URL; the first-encountered one (a 10×10 `img` tag) is removed by the
minimum-size filter, and the combined filter also removes the later
duplicate, so the returned array has zero entries for that URL, not exactly
one. -/
theorem dedup_collapse_counterexample :
    (method1 [⟨"http://a/pic.jpg", "thumb", 10, 0, 10, 0⟩]).map (fun i => i.src)
        = ["http://a/pic.jpg"]
    ∧ (method4 [{ dataSrc := some "http://a/pic.jpg" }]).map (fun i => i.src)
        = ["http://a/pic.jpg"]
    ∧ pageEvaluate ⟨[⟨"http://a/pic.jpg", "thumb", 10, 0, 10, 0⟩], [], [],
        [{ dataSrc := some "http://a/pic.jpg" }]⟩ = [] :=
  ⟨rfl, rfl, rfl⟩

/-- C2 (amended): the returned array holds at most one entry per source URL;
when a first-encountered candidate for that URL exists, the count is exactly
one if that candidate passes the minimum-size filter and exactly zero if the
filter removes it. -/
theorem dedup_src_count (l : List Image) (s : String) :
    (uniqueImages l).countP (fun i => i.src == s) ≤ 1
    ∧ ∀ img : Image, l[l.findIdx fun i => i.src == s]? = some img →
        (uniqueImages l).countP (fun i => i.src == s) =
          if isTooSmall img then 0 else 1 :=
  ⟨countP_src_uniqueImages_le_one l s, fun _ h => countP_src_uniqueImages_eq h⟩

/-- Witness for C2's amended claim at a concrete candidate list. -/
theorem dedup_src_count_witness :
    (uniqueImages [⟨"http://a/pic.jpg", "x", "img-tag", 10, 10, none⟩,
        ⟨"http://a/pic.jpg", "b", "background-image", 0, 0, some "DIV"⟩]).countP
        (fun i => i.src == "http://a/pic.jpg")
      = if isTooSmall ⟨"http://a/pic.jpg", "x", "img-tag", 10, 10, none⟩ then 0 else 1 :=
  (dedup_src_count _ _).2 _ rfl

/-- C3 counterexample: two method candidates share a source URL but differ in
metadata; swapping the order of the two methods changes which entry survives
deduplication, so the extraction result is not order-independent. -/
theorem method_order_counterexample :
    (⟨"http://a/pic.jpg", "alt text", "img-tag", 100, 100, none⟩ : Image).src
      = (⟨"http://a/pic.jpg", "background-0", "background-image", 0, 0,
          some "DIV"⟩ : Image).src
    ∧ uniqueImages ([⟨"http://a/pic.jpg", "alt text", "img-tag", 100, 100, none⟩]
          ++ [⟨"http://a/pic.jpg", "background-0", "background-image", 0, 0, some "DIV"⟩])
      ≠ uniqueImages ([⟨"http://a/pic.jpg", "background-0", "background-image", 0, 0,
            some "DIV"⟩]
          ++ [⟨"http://a/pic.jpg", "alt text", "img-tag", 100, 100, none⟩]) :=
  ⟨rfl, by decide⟩

/-- C3 (amended): permuting the candidates produced by the detection methods
preserves the set of returned source URLs provided no candidate is removed
by the minimum-size filter; which metadata survives for a URL still depends
on the order (see the counterexample). -/
theorem srcs_order_invariant (l₁ l₂ : List Image) (hp : l₁.Perm l₂)
    (hs : ∀ img ∈ l₁, isTooSmall img = false) (s : String) :
    ((∃ img ∈ uniqueImages l₁, img.src = s) ↔ ∃ img ∈ uniqueImages l₂, img.src = s) := by
  have hs₂ : ∀ img ∈ l₂, isTooSmall img = false := fun img h => hs img (hp.mem_iff.mpr h)
  rw [exists_src_uniqueImages_iff l₁ hs s, exists_src_uniqueImages_iff l₂ hs₂ s]
  constructor
  · rintro ⟨img, hm, h⟩
    exact ⟨img, hp.mem_iff.mp hm, h⟩
  · rintro ⟨img, hm, h⟩
    exact ⟨img, hp.mem_iff.mpr hm, h⟩

/-- Witness for C3's amended claim on a concrete two-candidate swap. -/
theorem srcs_order_invariant_witness :
    ((∃ img ∈ uniqueImages [⟨"http://a/pic.jpg", "alt text", "img-tag", 100, 100, none⟩,
        ⟨"http://a/pic.jpg", "background-0", "background-image", 0, 0, some "DIV"⟩],
        img.src = "http://a/pic.jpg")
      ↔ ∃ img ∈ uniqueImages [⟨"http://a/pic.jpg", "background-0", "background-image",
          0, 0, some "DIV"⟩,
        ⟨"http://a/pic.jpg", "alt text", "img-tag", 100, 100, none⟩],
        img.src = "http://a/pic.jpg") :=
  srcs_order_invariant _ _ (List.Perm.swap _ _ _) (by decide) _

/-- Spec-side definition, for comparison: the spec's invariant reads "source
URL must be an absolute HTTP(S) URL", i.e. the URL has scheme `http://` or
`https://`. -/
def specAbsoluteHttpUrl (s : String) : Bool :=
  jsStartsWith s "http://" || jsStartsWith s "https://"

/-- C4 counterexample: an `img` tag whose `src` is `httpfoo://evil/x` passes
the code's check (the string starts with the four characters `http`) and is
returned, yet it is not an absolute HTTP(S) URL. -/
theorem http_prefix_counterexample :
    pageEvaluate ⟨[⟨"httpfoo://evil/x", "", 100, 0, 100, 0⟩], [], [], []⟩
        = [⟨"httpfoo://evil/x", "image-0", "img-tag", 100, 100, none⟩]
    ∧ specAbsoluteHttpUrl "httpfoo://evil/x" = false :=
  ⟨rfl, rfl⟩

/-- C4 (amended): every image entry returned by the extraction script has a
source URL that starts with the prefix "http" — which is all the code
checks; the URL need not be a well-formed absolute HTTP(S) URL. -/
theorem src_starts_with_http (page : Page) (img : Image)
    (h : img ∈ pageEvaluate page) : jsStartsWith img.src "http" = true := by
  unfold pageEvaluate at h
  have hm := mem_of_mem_uniqueImages h
  rcases List.mem_append.mp hm with hm | hm4
  · rcases List.mem_append.mp hm with hm | hm3
    · rcases List.mem_append.mp hm with hm1 | hm2
      · exact method1_src_http hm1
      · exact method2_src_http hm2
    · exact method3_src_http hm3
  · exact method4_src_http hm4

/-- Witness for C4's amended claim at a concrete page. -/
theorem src_starts_with_http_witness :
    jsStartsWith (⟨"http://a/img.jpg", "a", "img-tag", 200, 100, none⟩ : Image).src
      "http" = true :=
  src_starts_with_http ⟨[⟨"http://a/img.jpg", "a", 200, 0, 100, 0⟩], [], [], []⟩
    ⟨"http://a/img.jpg", "a", "img-tag", 200, 100, none⟩ (by decide)

/-- C5: when browser launch, page creation, or the navigate-and-extract
sequence throws with message `m`, the response is status 500 with body
`{error: 'Failed to extract images', message: m}` — the underlying message
passed through unmodified. -/
theorem error_message_passthrough (s : ServerState) (url : JsValue) (env : BrowserEnv)
    (m : String) (hu : truthy url = true)
    (hthrow :
      (s.browser = false ∧ env.launchResult = .error m)
      ∨ ((s.browser = true ∨ env.launchResult = .ok ()) ∧ env.newPageResult = .error m)
      ∨ ((s.browser = true ∨ env.launchResult = .ok ()) ∧ env.newPageResult = .ok ()
          ∧ env.pageResult = .error m)) :
    (postExtractImages s url env).2.2
      = ⟨500, .failure "Failed to extract images" (some m)⟩ := by
  rcases hthrow with ⟨hb, hl⟩ | ⟨hb, hn⟩ | ⟨hb, hn, hp⟩
  · simp [postExtractImages, hu, hb, hl]
  · rcases hb with hb | hl
    · simp [postExtractImages, afterBrowser, hu, hb, hn]
    · cases hsb : s.browser with
      | true => simp [postExtractImages, afterBrowser, hu, hsb, hn]
      | false => simp [postExtractImages, afterBrowser, hu, hsb, hl, hn]
  · rcases hb with hb | hl
    · simp [postExtractImages, afterBrowser, hu, hb, hn, hp]
    · cases hsb : s.browser with
      | true => simp [postExtractImages, afterBrowser, hu, hsb, hn, hp]
      | false => simp [postExtractImages, afterBrowser, hu, hsb, hl, hn, hp]

/-- Witness for C5: a request whose browser launch throws. -/
theorem error_message_passthrough_witness :
    (postExtractImages ⟨false⟩ (.str "http://unreachable.example")
        ⟨.error "net::ERR_NAME_NOT_RESOLVED", .ok (), .ok ⟨[], [], [], []⟩⟩).2.2
      = ⟨500, .failure "Failed to extract images" (some "net::ERR_NAME_NOT_RESOLVED")⟩ :=
  error_message_passthrough _ _ _ _ rfl (Or.inl ⟨rfl, rfl⟩)

/-- C6: `/health` reports `browser: false` in the initial state and after any
request sequence in which no request reached browser initialization; it
reports `browser: true` right after any request that reached browser
initialization (whatever the later outcome of that request); and once the
flag is set it stays set over any further requests. -/
theorem health_browser_flag :
    getHealth initialServerState = ⟨200, .health "OK" false⟩
    ∧ (∀ (s : ServerState) (rs : List ExtractRequest), s.browser = false →
        (∀ r ∈ rs, truthy r.url = false ∨ r.env.launchResult ≠ .ok ()) →
        getHealth (runServer s rs) = ⟨200, .health "OK" false⟩)
    ∧ (∀ (s : ServerState) (r : ExtractRequest), truthy r.url = true →
        (s.browser = true ∨ r.env.launchResult = .ok ()) →
        getHealth (stepServer s r) = ⟨200, .health "OK" true⟩)
    ∧ (∀ (s : ServerState) (rs : List ExtractRequest), s.browser = true →
        getHealth (runServer s rs) = ⟨200, .health "OK" true⟩) := by
  refine ⟨rfl, ?_, ?_, ?_⟩
  · intro s rs
    induction rs generalizing s with
    | nil => intro hb _; simp [runServer, getHealth, hb]
    | cons r rs ih =>
      intro hb hall
      have hb2 := stepServer_browser_false s r hb (hall r (List.mem_cons_self r rs))
      exact ih _ hb2 fun x hx => hall x (List.mem_cons_of_mem r hx)
  · intro s r hu hb
    simp [getHealth, stepServer_browser_true s r hu hb]
  · intro s rs hb
    simp [getHealth, runServer_browser_true rs s hb]

/-- Witness for C6 at concrete states and requests. -/
theorem health_browser_flag_witness :
    getHealth initialServerState = ⟨200, .health "OK" false⟩
    ∧ getHealth (runServer ⟨false⟩ [⟨.undefined, ⟨.ok (), .ok (), .ok ⟨[], [], [], []⟩⟩⟩])
        = ⟨200, .health "OK" false⟩
    ∧ getHealth (stepServer ⟨false⟩
        ⟨.str "http://t.example", ⟨.ok (), .error "boom", .ok ⟨[], [], [], []⟩⟩⟩)
        = ⟨200, .health "OK" true⟩
    ∧ getHealth (runServer ⟨true⟩
        [⟨.str "http://t.example", ⟨.ok (), .ok (), .ok ⟨[], [], [], []⟩⟩⟩])
        = ⟨200, .health "OK" true⟩ :=
  ⟨health_browser_flag.1,
   health_browser_flag.2.1 _ _ rfl (by
     intro r hr
     simp only [List.mem_singleton] at hr
     subst hr
     exact Or.inl rfl),
   health_browser_flag.2.2.1 _ _ rfl (Or.inr rfl),
   health_browser_flag.2.2.2 _ _ rfl⟩

/-- C7: a request whose JSON body lacks the `url` field is answered 400 with
the error body, the state is unchanged (the browser is not launched), and no
browser-library call — in particular no page — happens for that request. -/
theorem missing_url_400 (s : ServerState) (env : BrowserEnv) :
    postExtractImages s JsValue.undefined env
      = (s, [], ⟨400, .failure "URL is required" none⟩) := rfl

/-- C8: the scroll routine performs exactly five scroll steps at multiples 0
through 4 of the viewport height with a one-second wait after each, then
scrolls back to the top; the sequence depends only on the viewport height,
never on the page's own height or content. -/
theorem scroll_policy_fixed (viewportHeight : Nat) :
    scrollPageToLoadImages viewportHeight =
      [.scrollTo (0 * viewportHeight), .wait 1000,
       .scrollTo (1 * viewportHeight), .wait 1000,
       .scrollTo (2 * viewportHeight), .wait 1000,
       .scrollTo (3 * viewportHeight), .wait 1000,
       .scrollTo (4 * viewportHeight), .wait 1000,
       .scrollTo 0, .wait 1000] := rfl

/-- C9: a successful extraction answers 200 with `images` the extraction
result, `count` exactly the length of the `images` array, and `url` echoing
the request body's url value. -/
theorem success_response_shape (s : ServerState) (url : JsValue) (env : BrowserEnv)
    (page : Page) (hu : truthy url = true)
    (hb : s.browser = true ∨ env.launchResult = .ok ())
    (hn : env.newPageResult = .ok ()) (hp : env.pageResult = .ok page) :
    (postExtractImages s url env).2.2
      = ⟨200, .success (pageEvaluate page) (pageEvaluate page).length url⟩ := by
  rcases hb with hb | hl
  · simp [postExtractImages, afterBrowser, hu, hb, hn, hp]
  · cases hsb : s.browser with
    | true => simp [postExtractImages, afterBrowser, hu, hsb, hn, hp]
    | false => simp [postExtractImages, afterBrowser, hu, hsb, hl, hn, hp]

/-- Witness for C9 at a concrete successful request. -/
theorem success_response_shape_witness :
    (postExtractImages ⟨false⟩ (.str "http://target.example")
        ⟨.ok (), .ok (), .ok ⟨[⟨"http://a/img.jpg", "a", 200, 0, 100, 0⟩], [], [], []⟩⟩).2.2
      = ⟨200, .success
          (pageEvaluate ⟨[⟨"http://a/img.jpg", "a", 200, 0, 100, 0⟩], [], [], []⟩)
          (pageEvaluate ⟨[⟨"http://a/img.jpg", "a", 200, 0, 100, 0⟩], [], [], []⟩).length
          (.str "http://target.example")⟩ :=
  success_response_shape _ _ _ _ rfl (Or.inr rfl) rfl rfl

/-- C10: a present-but-falsy url field — the empty string, null, false, or
0 — is handled identically to a missing field: same 400 rejection, same
state, no browser calls. -/
theorem falsy_url_same_as_missing (s : ServerState) (env : BrowserEnv) (v : JsValue)
    (hv : v ∈ ([.str "", .null, .bool false, .num 0] : List JsValue)) :
    postExtractImages s v env = postExtractImages s .undefined env := by
  simp only [List.mem_cons, List.not_mem_nil, or_false] at hv
  rcases hv with rfl | rfl | rfl | rfl <;> rfl

/-- Witness for C10 at a concrete state and environment. -/
theorem falsy_url_same_as_missing_witness :
    postExtractImages ⟨false⟩ (.str "") ⟨.ok (), .ok (), .ok ⟨[], [], [], []⟩⟩
      = postExtractImages ⟨false⟩ .undefined ⟨.ok (), .ok (), .ok ⟨[], [], [], []⟩⟩ :=
  falsy_url_same_as_missing _ _ _ (by simp)

end ImageServer
